import Mathlib

set_option maxRecDepth 40000

attribute [local semireducible] Rat.ofScientific

/-!
Verification of the gemini exchange client (src/gemini.go).

The Go source is shallowly embedded: bytes are `Nat` values below 256 in
`List Nat`, Go strings are Lean `String` (or byte lists where the Go code
treats them as raw bytes), `int64` is `Int` with explicit two-complement
wrapping where the code increments, and the HTTP transport is an explicit
outcome parameter so that every control path of the Go functions is a case
of the Lean definition.  The cryptographic and encoding primitives used by
the source (SHA-384, HMAC, base64, hex, JSON) come from the Go standard
library; they are implemented here from their public standard definitions
so that signatures and payloads are computed, not assumed.
-/

/-! ### Byte and string primitives -/

/-- UTF-8 encoding of one character, as Go produces for `[]byte(string)`. -/
def utf8Char (c : Char) : List Nat :=
  let n := c.toNat
  if n < 0x80 then [n]
  else if n < 0x800 then [0xc0 ||| (n >>> 6), 0x80 ||| (n &&& 0x3f)]
  else if n < 0x10000 then
    [0xe0 ||| (n >>> 12), 0x80 ||| ((n >>> 6) &&& 0x3f), 0x80 ||| (n &&& 0x3f)]
  else
    [0xf0 ||| (n >>> 18), 0x80 ||| ((n >>> 12) &&& 0x3f),
     0x80 ||| ((n >>> 6) &&& 0x3f), 0x80 ||| (n &&& 0x3f)]

/-- Go `[]byte(s)` for a character list. -/
def charsBytes (l : List Char) : List Nat := (l.map utf8Char).flatten

/-- Go `[]byte(s)`: the UTF-8 bytes of a string. -/
def strBytes (s : String) : List Nat := charsBytes s.toList

/-- Lowercase hexadecimal digit, as `encoding/hex` uses. -/
def hexDigit (n : Nat) : Char :=
  if n % 16 < 10 then Char.ofNat (48 + n % 16) else Char.ofNat (87 + n % 16)

/-- Go `hex.EncodeToString`: two lowercase hex digits per byte. -/
def hexEncode (bs : List Nat) : String :=
  String.mk (bs.foldr (fun b acc => hexDigit (b / 16) :: hexDigit b :: acc) [])

/-- The `base64.StdEncoding` alphabet. -/
def b64Char (i : Nat) : Char :=
  if i < 26 then Char.ofNat (65 + i)
  else if i < 52 then Char.ofNat (71 + i)
  else if i < 62 then Char.ofNat (i - 4)
  else if i = 62 then '+' else '/'

/-- Go `base64.StdEncoding` encoding with padding, three bytes to four chars. -/
def base64Chars : List Nat → List Char
  | [] => []
  | [b1] => [b64Char (b1 / 4), b64Char (b1 % 4 * 16), '=', '=']
  | [b1, b2] => [b64Char (b1 / 4), b64Char (b1 % 4 * 16 + b2 / 16), b64Char (b2 % 16 * 4), '=']
  | b1 :: b2 :: b3 :: rest =>
    b64Char (b1 / 4) :: b64Char (b1 % 4 * 16 + b2 / 16) ::
      b64Char (b2 % 16 * 4 + b3 / 64) :: b64Char (b3 % 64) :: base64Chars rest

/-- Go `base64.StdEncoding.EncodeToString`. -/
def base64Encode (bs : List Nat) : String := String.mk (base64Chars bs)

/-! ### SHA-512 / SHA-384 (FIPS 180-4) and HMAC (RFC 2104), as used by
`crypto/sha512.New384` and `crypto/hmac` in the source. -/

def mask64 : Nat := 0xffffffffffffffff

def rotr64 (n x : Nat) : Nat := ((x >>> n) ||| (x <<< (64 - n))) &&& mask64

/-- The eight-tuple working state of the SHA-512 compression function. -/
structure ShaState where
  a : Nat
  b : Nat
  c : Nat
  d : Nat
  e : Nat
  f : Nat
  g : Nat
  h : Nat
deriving DecidableEq

/-- SHA-384 initial hash value (FIPS 180-4, 5.3.4): the first 64
fractional bits of the square roots of the ninth through sixteenth
primes, here in decimal. -/
def iv384 : ShaState :=
  ⟨14680500436340154072, 7105036623409894663, 10473403895298186519, 1526699215303891257,
   7436329637833083697, 10282925794625328401, 15784041429090275239, 5167115440072839076⟩

/-- SHA-512 round constants (FIPS 180-4, 4.2.3): the first 64 fractional
bits of the cube roots of the first eighty primes, here in decimal. -/
def sha512K : List Nat :=
  [4794697086780616226, 8158064640168781261, 13096744586834688815, 16840607885511220156,
   4131703408338449720, 6480981068601479193, 10538285296894168987, 12329834152419229976,
   15566598209576043074, 1334009975649890238, 2608012711638119052, 6128411473006802146,
   8268148722764581231, 9286055187155687089, 11230858885718282805, 13951009754708518548,
   16472876342353939154, 17275323862435702243, 1135362057144423861, 2597628984639134821,
   3308224258029322869, 5365058923640841347, 6679025012923562964, 8573033837759648693,
   10970295158949994411, 12119686244451234320, 12683024718118986047, 13788192230050041572,
   14330467153632333762, 15395433587784984357, 489312712824947311, 1452737877330783856,
   2861767655752347644, 3322285676063803686, 5560940570517711597, 5996557281743188959,
   7280758554555802590, 8532644243296465576, 9350256976987008742, 10552545826968843579,
   11727347734174303076, 12113106623233404929, 14000437183269869457, 14369950271660146224,
   15101387698204529176, 15463397548674623760, 17586052441742319658, 1182934255886127544,
   1847814050463011016, 2177327727835720531, 2830643537854262169, 3796741975233480872,
   4115178125766777443, 5681478168544905931, 6601373596472566643, 7507060721942968483,
   8399075790359081724, 8693463985226723168, 9568029438360202098, 10144078919501101548,
   10430055236837252648, 11840083180663258601, 13761210420658862357, 14299343276471374635,
   14566680578165727644, 15097957966210449927, 16922976911328602910, 17689382322260857208,
   500013540394364858, 748580250866718886, 1242879168328830382, 1977374033974150939,
   2944078676154940804, 3659926193048069267, 4368137639120453308, 4836135668995329356,
   5532061633213252278, 6448918945643986474, 6902733635092675308, 7801388544844847127]

/-- Big-endian packing of bytes into 64-bit words. -/
def bytesToWords64 : List Nat → List Nat
  | b0 :: b1 :: b2 :: b3 :: b4 :: b5 :: b6 :: b7 :: rest =>
    (((((((b0 <<< 8 ||| b1) <<< 8 ||| b2) <<< 8 ||| b3) <<< 8 ||| b4) <<< 8 ||| b5)
        <<< 8 ||| b6) <<< 8 ||| b7) :: bytesToWords64 rest
  | _ => []

/-- Big-endian bytes of a 64-bit word. -/
def word64Bytes (w : Nat) : List Nat :=
  [(w >>> 56) &&& 0xff, (w >>> 48) &&& 0xff, (w >>> 40) &&& 0xff, (w >>> 32) &&& 0xff,
   (w >>> 24) &&& 0xff, (w >>> 16) &&& 0xff, (w >>> 8) &&& 0xff, w &&& 0xff]

/-- Big-endian 16-byte (128-bit) encoding of the message bit length. -/
def lenBytes16 (n : Nat) : List Nat :=
  (List.range 16).map (fun i => (n >>> (8 * (15 - i))) &&& 0xff)

/-- SHA-512 message padding: `0x80`, zeros, then the 128-bit bit length,
to a multiple of 128 bytes. -/
def sha512pad (msg : List Nat) : List Nat :=
  let r := msg.length % 128
  let padlen := if r < 112 then 112 - r else 240 - r
  msg ++ (0x80 :: List.replicate (padlen - 1) 0) ++ lenBytes16 (8 * msg.length)

/-- Message-schedule extension; `acc` holds the words most recent first. -/
def extendW : Nat → List Nat → List Nat
  | 0, acc => acc
  | fuel + 1, acc =>
    let g := fun i => acc.getD i 0
    let s0 := rotr64 1 (g 14) ^^^ rotr64 8 (g 14) ^^^ (g 14 >>> 7)
    let s1 := rotr64 19 (g 1) ^^^ rotr64 61 (g 1) ^^^ (g 1 >>> 6)
    extendW fuel (((g 15 + s0 + g 6 + s1) &&& mask64) :: acc)

/-- One SHA-512 round. -/
def shaRound (st : ShaState) (kw : Nat × Nat) : ShaState :=
  let s1 := rotr64 14 st.e ^^^ rotr64 18 st.e ^^^ rotr64 41 st.e
  let ch := (st.e &&& st.f) ^^^ ((mask64 ^^^ st.e) &&& st.g)
  let t1 := (st.h + s1 + ch + kw.1 + kw.2) &&& mask64
  let s0 := rotr64 28 st.a ^^^ rotr64 34 st.a ^^^ rotr64 39 st.a
  let mj := (st.a &&& st.b) ^^^ (st.a &&& st.c) ^^^ (st.b &&& st.c)
  let t2 := (s0 + mj) &&& mask64
  ⟨(t1 + t2) &&& mask64, st.a, st.b, st.c, (st.d + t1) &&& mask64, st.e, st.f, st.g⟩

/-- SHA-512 compression of one 128-byte block. -/
def shaCompress (H : ShaState) (block : List Nat) : ShaState :=
  let w16 := bytesToWords64 block
  let w := (extendW 64 w16.reverse).reverse
  let st := (sha512K.zip w).foldl shaRound H
  ⟨(H.a + st.a) &&& mask64, (H.b + st.b) &&& mask64, (H.c + st.c) &&& mask64,
   (H.d + st.d) &&& mask64, (H.e + st.e) &&& mask64, (H.f + st.f) &&& mask64,
   (H.g + st.g) &&& mask64, (H.h + st.h) &&& mask64⟩

/-- Process a padded message 128 bytes at a time (fuel-driven recursion so
that concrete computations reduce in the kernel). -/
def shaBlocks : Nat → ShaState → List Nat → ShaState
  | _, H, [] => H
  | 0, H, _ => H
  | fuel + 1, H, msg => shaBlocks fuel (shaCompress H (msg.take 128)) (msg.drop 128)

/-- SHA-384 digest of a byte sequence: SHA-512 with the SHA-384 initial
value, truncated to the first six words (48 bytes). -/
def sha384 (msg : List Nat) : List Nat :=
  let padded := sha512pad msg
  let H := shaBlocks (padded.length + 1) iv384 padded
  ([H.a, H.b, H.c, H.d, H.e, H.f].map word64Bytes).flatten

/-- HMAC with SHA-384 (RFC 2104; `crypto/hmac` with a 128-byte block size):
an over-long key is hashed, the key is zero-padded to the block size, and
the digest is `H((k xor opad) ++ H((k xor ipad) ++ msg))`. -/
def hmacSha384 (key msg : List Nat) : List Nat :=
  let k0 := if 128 < key.length then sha384 key else key
  let k1 := k0 ++ List.replicate (128 - k0.length) 0
  let ipad := k1.map (fun b => b ^^^ 0x36)
  let opad := k1.map (fun b => b ^^^ 0x5c)
  sha384 (opad ++ sha384 (ipad ++ msg))

/-! ### Decimal rendering

`fmt.Sprintf("%0.6f", x)` and friends round the value to the requested
number of decimal digits (ties to even, the rounding `strconv.FormatFloat`
performs on the exact value of its argument) and always print exactly that
many digits after the point.  The `float64` arguments of the source are
modeled as exact rationals; every concrete value appearing in the claims
is exactly representable in binary floating point, so the model agrees
with the source there. -/

/-- The decimal digit character for `n % 10`. -/
def digitChar (n : Nat) : Char := Char.ofNat (48 + n % 10)

/-- Decimal digits of `n`, most significant first (fuel-driven). -/
def natCharsAux : Nat → Nat → List Char
  | 0, _ => []
  | fuel + 1, n => if n < 10 then [digitChar n] else natCharsAux fuel (n / 10) ++ [digitChar n]

/-- Decimal rendering of a natural number. -/
def natChars (n : Nat) : List Char := natCharsAux (n + 1) n

/-- Decimal rendering of an integer (Go `strconv.FormatInt` base 10). -/
def intChars (n : Int) : List Char :=
  if n < 0 then '-' :: natChars (-n).toNat else natChars n.toNat

/-- Round `|q| * 10 ^ d` to an integer, ties to even, computed on the
numerator and denominator directly. -/
def roundDecimal (d : Nat) (q : ℚ) : Nat :=
  let n := q.num.natAbs * 10 ^ d
  let ip := n / q.den
  let rem := n % q.den
  if q.den < 2 * rem then ip + 1
  else if 2 * rem < q.den then ip
  else if ip % 2 = 0 then ip else ip + 1

/-- Exactly `d` decimal digits of `n`, most significant first. -/
def padDigits (d n : Nat) : List Char :=
  (List.range d).reverse.map (fun i => digitChar (n / 10 ^ i))

/-- Integer part, a point, then exactly `d` fractional digits of `n / 10 ^ d`. -/
def fmtCharsNat (d n : Nat) : List Char :=
  natChars (n / 10 ^ d) ++ '.' :: padDigits d (n % 10 ^ d)

/-- Character list of `fmt.Sprintf` with verb `%0.df` applied to `q`: a
sign when negative, then the magnitude rounded half-to-even to `d`
decimal digits. -/
def fmtChars (d : Nat) (q : ℚ) : List Char :=
  if q < 0 then '-' :: fmtCharsNat d (roundDecimal d q)
  else fmtCharsNat d (roundDecimal d q)

/-- Model of Go `fmt.Sprintf("%0.df", q)` for `d` decimal places. -/
def fmtFixed (d : Nat) (q : ℚ) : String := String.mk (fmtChars d q)

/-! ### Go JSON serialization of the request bodies

`json.Marshal` on the request structs emits the fields in struct order
(the embedded `BaseRequest` fields first for `OrderPlaceReq`), with the
string escaping of `encoding/json` (HTML-escaping on, so `<`, `>`, `&`
and U+2028/U+2029 become `\uXXXX` escapes). -/

/-- Go `encoding/json` escaping of one character inside a string literal. -/
def jsonEscapeChar (c : Char) : List Char :=
  if c = '"' then ['\\', '"']
  else if c = '\\' then ['\\', '\\']
  else if c = '\n' then ['\\', 'n']
  else if c = '\r' then ['\\', 'r']
  else if c = '\t' then ['\\', 't']
  else if c.toNat < 0x20 then ['\\', 'u', '0', '0', hexDigit (c.toNat / 16), hexDigit c.toNat]
  else if c = '<' then ['\\', 'u', '0', '0', '3', 'c']
  else if c = '>' then ['\\', 'u', '0', '0', '3', 'e']
  else if c = '&' then ['\\', 'u', '0', '0', '2', '6']
  else if c.toNat = 0x2028 then ['\\', 'u', '2', '0', '2', '8']
  else if c.toNat = 0x2029 then ['\\', 'u', '2', '0', '2', '9']
  else [c]

/-- A JSON string literal with the Go escaping, quotes included. -/
def jsonQuote (s : String) : List Char :=
  '"' :: (s.toList.map jsonEscapeChar).flatten ++ ['"']

/-- The embedded `BaseRequest` struct: route and nonce. -/
structure BaseRequest where
  Request : String
  Nonce : Int
deriving DecidableEq

/-- The `NewBaseRequest` constructor in the source: route set, nonce left at the zero value. -/
def NewBaseRequest (route : String) : BaseRequest := ⟨route, 0⟩

/-- The `OrderPlaceReq` struct of the source; the Go field `Type` is named
`Type'` here because `Type` is reserved in Lean. -/
structure OrderPlaceReq where
  toBaseRequest : BaseRequest
  Symbol : String
  Amount : String
  Price : String
  Side : String
  Type' : String
  ClientId : String
deriving DecidableEq

/-- Go `json.Marshal` of a `*BaseRequest`. -/
def marshalBaseRequest (r : BaseRequest) : List Char :=
  ("\x7b\"request\":").toList ++ jsonQuote r.Request
    ++ (",\"nonce\":").toList ++ intChars r.Nonce ++ ['\x7d']

/-- Go `json.Marshal` of an `*OrderPlaceReq` (embedded fields first, then the
order fields, in struct order). -/
def marshalOrderPlaceReq (r : OrderPlaceReq) : List Char :=
  ("\x7b\"request\":").toList ++ jsonQuote r.toBaseRequest.Request
    ++ (",\"nonce\":").toList ++ intChars r.toBaseRequest.Nonce
    ++ (",\"symbol\":").toList ++ jsonQuote r.Symbol
    ++ (",\"amount\":").toList ++ jsonQuote r.Amount
    ++ (",\"price\":").toList ++ jsonQuote r.Price
    ++ (",\"side\":").toList ++ jsonQuote r.Side
    ++ (",\"type\":").toList ++ jsonQuote r.Type'
    ++ (",\"client_order_id\":").toList ++ jsonQuote r.ClientId
    ++ ['\x7d']

/-- The `Request` interface: the two request shapes the source passes to
`AuthAPIReq`. -/
inductive Req
  | base (r : BaseRequest)
  | orderPlace (r : OrderPlaceReq)
deriving DecidableEq

/-- The `SetNonce` method of each shape. -/
def Req.SetNonce : Req → Int → Req
  | .base r, n => .base { r with Nonce := n }
  | .orderPlace r, n => .orderPlace { r with toBaseRequest := { r.toBaseRequest with Nonce := n } }

/-- The `GetRoute` method: both shapes return the `Request` field. -/
def Req.GetRoute : Req → String
  | .base r => r.Request
  | .orderPlace r => r.toBaseRequest.Request

/-- The JSON serialization of the request body. -/
def Req.jsonChars : Req → List Char
  | .base r => marshalBaseRequest r
  | .orderPlace r => marshalOrderPlaceReq r

/-- The `GetPayload` method: `json.Marshal` of the struct, as bytes. -/
def Req.GetPayload (r : Req) : List Nat := charsBytes r.jsonChars

/-- The nonce field currently embedded in a request body. -/
def Req.nonceOf : Req → Int
  | .base r => r.Nonce
  | .orderPlace r => r.toBaseRequest.Nonce

/-! ### The signed request dispatcher -/

/-- The `GeminiAPI` struct.  `ApiSecret` is a Go string used only as the
byte sequence `[]byte(ga.ApiSecret)`, so it is carried as bytes. -/
structure GeminiAPI where
  BaseURL : String
  ApiKey : String
  ApiSecret : List Nat
  Nonce : Int
deriving DecidableEq

/-- Two-complement wrap of `int64` arithmetic. -/
def wrap64 (n : Int) : Int := (n + 2 ^ 63) % 2 ^ 64 - 2 ^ 63

/-- An outbound HTTP request as the source constructs it: method, URL,
body (`nil` for every authenticated call), and the headers added via
`Header.Add`, in order, with the names as written in the source. -/
structure HttpRequest where
  method : String
  url : String
  reqBody : Option (List Nat)
  headers : List (String × String)
deriving DecidableEq

/-- Look up a header value by exact name. -/
def hdrVal (req : HttpRequest) (k : String) : Option String :=
  (req.headers.find? (fun p => p.1 == k)).map (fun p => p.2)

/-- The outcome the environment hands a `POST` dispatch: `newReqErr` when
`http.NewRequest` fails, `doErr` when `client.Do` fails (connection
error, timeout), `readErr` when reading the response body fails, and
`ok body` on success. -/
inductive NetOutcome
  | newReqErr | doErr | readErr | ok (respBody : List Nat)
deriving DecidableEq

/-- Everything observable about one `AuthAPIReq` call: the dispatcher
state after the call, the HTTP request attempted (`none` when
`http.NewRequest` already failed), the signed body, and the Go return
value `([]byte, error)`. -/
structure AuthResult where
  state : GeminiAPI
  sent : Option HttpRequest
  signed : Req
  retBody : List Nat
  retErr : Option String
deriving DecidableEq

/-- The `base64Payload` string and the hex HMAC signature as computed at lines
112-115 of the source. -/
def signPayload (r : Req) : String := base64Encode r.GetPayload

/-- The hex signature over the ASCII bytes of the base64 payload. -/
def signatureHex (secret : List Nat) (r : Req) : String :=
  hexEncode (hmacSha384 secret (strBytes (signPayload r)))

/-- The HTTP request `AuthAPIReq` builds for a signed body. -/
def authHttpRequest (ga : GeminiAPI) (r : Req) : HttpRequest :=
  { method := "POST", url := ga.BaseURL ++ r.GetRoute, reqBody := none,
    headers := [("X-GEMINI-APIKEY", ga.ApiKey),
                ("X-GEMINI-PAYLOAD", signPayload r),
                ("X-GEMINI-SIGNATURE", signatureHex ga.ApiSecret r)] }

/-- The `AuthAPIReq` method (source lines 103-131): set the nonce from the counter,
increment the counter, build and sign the request, dispatch it, and
return the body.  Every error path of the source returns the pair
`([]byte\x7b\x7d, nil)` - an empty body with a `nil` error. -/
def AuthAPIReq (ga : GeminiAPI) (r : Req) (w : NetOutcome) : AuthResult :=
  let r := r.SetNonce ga.Nonce
  let ga := { ga with Nonce := wrap64 (ga.Nonce + 1) }
  match w with
  | .newReqErr => { state := ga, sent := none, signed := r, retBody := [], retErr := none }
  | .doErr => { state := ga, sent := some (authHttpRequest ga r), signed := r, retBody := [], retErr := none }
  | .readErr => { state := ga, sent := some (authHttpRequest ga r), signed := r, retBody := [], retErr := none }
  | .ok b => { state := ga, sent := some (authHttpRequest ga r), signed := r, retBody := b, retErr := none }

/-- A sequence of authenticated calls on one dispatcher, returning the
final state and the nonce embedded in each dispatched body. -/
def runAuthCalls (ga : GeminiAPI) : List (Req × NetOutcome) → GeminiAPI × List Int
  | [] => (ga, [])
  | (r, w) :: rest =>
    let out := AuthAPIReq ga r w
    let tail := runAuthCalls out.state rest
    (tail.1, out.signed.nonceOf :: tail.2)

/-! ### JSON parsing of response bodies

A model of `encoding/json` unmarshaling as the source uses it.
`json.Unmarshal` first runs the syntax scanner over the whole body and
returns a `*SyntaxError` (message plus byte offset) on malformed input;
on valid input it decodes into the target record, ignoring unknown keys,
leaving fields missing from the object at their zero values, treating
`null` as a no-op, and recording a type error when a present field has
the wrong shape.  Error messages are reproduced exactly for the
beginning-of-value scanner errors the theorems below exercise and
approximately elsewhere; numbers are decoded as exact rationals (the
source decodes into `float64`, a distinction no claim below touches).
Bytes are taken as code points - the ASCII fragment, which is all the
exchange emits and all the theorems exercise. -/

inductive Json
  | null
  | jbool (b : Bool)
  | num (q : ℚ)
  | str (s : String)
  | arr (xs : List Json)
  | obj (fs : List (String × Json))

/-- A decoding failure: a scanner error with its byte offset, or a
type mismatch between the JSON value and the target record. -/
inductive JsonErr
  | syn (msg : String) (off : Nat)
  | typeMismatch (msg : String)
deriving DecidableEq

/-- A single-quote character, used in scanner messages. -/
def quoteCh : Char := Char.ofNat 39

/-- Scanner message for an unexpected byte, Go style. -/
def invalidChar (b : Nat) (ctx : String) : String :=
  "invalid character " ++ String.mk [quoteCh, Char.ofNat b, quoteCh] ++ " " ++ ctx

/-- Scanner message for truncated input. -/
def eofMsg : String := "unexpected end of JSON input"

/-- JSON insignificant whitespace. -/
def isJsonWs (b : Nat) : Bool := b == 32 || b == 9 || b == 10 || b == 13

/-- Skip whitespace, tracking the byte offset. -/
def skipWs : List Nat → Nat → List Nat × Nat
  | [], off => ([], off)
  | b :: rest, off =>
    if isJsonWs b then skipWs rest (off + 1) else (b :: rest, off)

/-- Hexadecimal digit value of a byte. -/
def hexVal (b : Nat) : Option Nat :=
  if 48 ≤ b ∧ b ≤ 57 then some (b - 48)
  else if 97 ≤ b ∧ b ≤ 102 then some (b - 87)
  else if 65 ≤ b ∧ b ≤ 70 then some (b - 55)
  else none

/-- Decimal digit test on bytes. -/
def isDigitB (b : Nat) : Bool := 48 ≤ b && b ≤ 57

/-- Body of a JSON string literal after the opening quote. -/
def parseStrBody : Nat → List Nat → Nat → List Char → Except JsonErr (String × List Nat × Nat)
  | 0, _, off, _ => .error (.syn eofMsg off)
  | _ + 1, [], off, _ => .error (.syn eofMsg off)
  | fuel + 1, b :: rest, off, acc =>
    if b = 34 then .ok (String.mk acc.reverse, rest, off + 1)
    else if b = 92 then
      match rest with
      | [] => .error (.syn eofMsg (off + 1))
      | e :: rest2 =>
        if e = 34 then parseStrBody fuel rest2 (off + 2) ('"' :: acc)
        else if e = 92 then parseStrBody fuel rest2 (off + 2) ('\\' :: acc)
        else if e = 47 then parseStrBody fuel rest2 (off + 2) ('/' :: acc)
        else if e = 98 then parseStrBody fuel rest2 (off + 2) (Char.ofNat 8 :: acc)
        else if e = 102 then parseStrBody fuel rest2 (off + 2) (Char.ofNat 12 :: acc)
        else if e = 110 then parseStrBody fuel rest2 (off + 2) ('\n' :: acc)
        else if e = 114 then parseStrBody fuel rest2 (off + 2) ('\r' :: acc)
        else if e = 116 then parseStrBody fuel rest2 (off + 2) ('\t' :: acc)
        else if e = 117 then
          match rest2 with
          | h1 :: h2 :: h3 :: h4 :: rest3 =>
            match hexVal h1, hexVal h2, hexVal h3, hexVal h4 with
            | some v1, some v2, some v3, some v4 =>
              parseStrBody fuel rest3 (off + 6)
                (Char.ofNat (((v1 * 16 + v2) * 16 + v3) * 16 + v4) :: acc)
            | _, _, _, _ =>
              .error (.syn (invalidChar e "in \\u hexadecimal character escape") (off + 2))
          | _ => .error (.syn eofMsg (off + 2 + rest2.length))
        else .error (.syn (invalidChar e "in string escape code") (off + 2))
    else if b < 32 then .error (.syn (invalidChar b "in string literal") (off + 1))
    else parseStrBody fuel rest (off + 1) (Char.ofNat b :: acc)

/-- Take a maximal run of decimal digits. -/
def takeDigits : List Nat → List Nat × List Nat
  | [] => ([], [])
  | b :: rest =>
    if isDigitB b then
      let t := takeDigits rest
      (b :: t.1, t.2)
    else ([], b :: rest)

/-- Numeric value of a digit run. -/
def digitsVal (ds : List Nat) : Nat := ds.foldl (fun a b => a * 10 + (b - 48)) 0

/-- A JSON number, following the scanner grammar: an optional minus, `0`
or a nonzero-led digit run, an optional fraction, an optional exponent. -/
def parseNumber (bs : List Nat) (off : Nat) : Except JsonErr (ℚ × List Nat × Nat) :=
  let sgn := match bs with
    | 45 :: r => (true, r, off + 1)
    | _ => (false, bs, off)
  match sgn with
  | (neg, bs1, off1) =>
    match bs1 with
    | [] => .error (.syn eofMsg off1)
    | b :: rest =>
      if ¬ isDigitB b then .error (.syn (invalidChar b "in numeric literal") (off1 + 1))
      else
        let ip := if b = 48 then ([b], rest) else takeDigits (b :: rest)
        match ip with
        | (ids, rest1) =>
          let intPart : ℚ := (digitsVal ids : Nat)
          let off2 := off1 + ids.length
          let frac : ℚ → List Nat → Nat → Except JsonErr (ℚ × List Nat × Nat) :=
            fun q bs2 off3 =>
            let ex : ℚ → List Nat → Nat → Except JsonErr (ℚ × List Nat × Nat) :=
              fun q2 bs3 off4 =>
              match bs3 with
              | 101 :: r3 | 69 :: r3 =>
                let es := match r3 with
                  | 43 :: r4 => (false, r4, off4 + 2)
                  | 45 :: r4 => (true, r4, off4 + 2)
                  | _ => (false, r3, off4 + 1)
                match es with
                | (eneg, r5, off5) =>
                  match takeDigits r5 with
                  | ([], _) =>
                    match r5 with
                    | [] => .error (.syn eofMsg off5)
                    | c :: _ => .error (.syn (invalidChar c "in exponent of numeric literal") (off5 + 1))
                  | (eds, r6) =>
                    let e : Int := if eneg then -(digitsVal eds : Int) else (digitsVal eds : Int)
                    .ok (q2 * (10 : ℚ) ^ e, r6, off5 + eds.length)
              | _ => .ok (q2, bs3, off4)
            match bs2 with
            | 46 :: r2 =>
              match takeDigits r2 with
              | ([], _) =>
                match r2 with
                | [] => .error (.syn eofMsg (off3 + 1))
                | c :: _ => .error (.syn (invalidChar c "after decimal point in numeric literal") (off3 + 2))
              | (fds, r3) =>
                ex (q + (digitsVal fds : ℚ) / (10 : ℚ) ^ fds.length) r3 (off3 + 1 + fds.length)
            | _ => ex q bs2 off3
          match frac intPart rest1 off2 with
          | .error e => .error e
          | .ok (q, r, o) => .ok ((if neg then -q else q), r, o)

mutual

/-- A JSON value (scanner and parser in one pass, fuel-driven). -/
def parseValue : Nat → List Nat → Nat → Except JsonErr (Json × List Nat × Nat)
  | 0, _, off => .error (.syn eofMsg off)
  | fuel + 1, bs, off =>
    match skipWs bs off with
    | (bs1, off1) =>
      match bs1 with
      | [] => .error (.syn eofMsg off1)
      | b :: rest =>
        if b = 110 then
          match rest with
          | 117 :: 108 :: 108 :: r => .ok (.null, r, off1 + 4)
          | _ => .error (.syn (invalidChar b "in literal null") (off1 + 1))
        else if b = 116 then
          match rest with
          | 114 :: 117 :: 101 :: r => .ok (.jbool true, r, off1 + 4)
          | _ => .error (.syn (invalidChar b "in literal true") (off1 + 1))
        else if b = 102 then
          match rest with
          | 97 :: 108 :: 115 :: 101 :: r => .ok (.jbool false, r, off1 + 5)
          | _ => .error (.syn (invalidChar b "in literal false") (off1 + 1))
        else if b = 34 then
          match parseStrBody (rest.length + 1) rest (off1 + 1) [] with
          | .error e => .error e
          | .ok (s, r, o) => .ok (.str s, r, o)
        else if b = 45 || isDigitB b then
          match parseNumber (b :: rest) off1 with
          | .error e => .error e
          | .ok (q, r, o) => .ok (.num q, r, o)
        else if b = 91 then
          match skipWs rest (off1 + 1) with
          | (93 :: r, o) => .ok (.arr [], r, o + 1)
          | (bs2, o) => parseArrayElems fuel bs2 o []
        else if b = 123 then
          match skipWs rest (off1 + 1) with
          | (125 :: r, o) => .ok (.obj [], r, o + 1)
          | (bs2, o) => parseObjElems fuel bs2 o []
        else .error (.syn (invalidChar b "looking for beginning of value") (off1 + 1))

/-- Array elements after `[`, accumulated in reverse. -/
def parseArrayElems : Nat → List Nat → Nat → List Json → Except JsonErr (Json × List Nat × Nat)
  | 0, _, off, _ => .error (.syn eofMsg off)
  | fuel + 1, bs, off, acc =>
    match parseValue fuel bs off with
    | .error e => .error e
    | .ok (v, rest, off1) =>
      match skipWs rest off1 with
      | ([], o) => .error (.syn eofMsg o)
      | (44 :: r, o) => parseArrayElems fuel r (o + 1) (v :: acc)
      | (93 :: r, o) => .ok (.arr (v :: acc).reverse, r, o + 1)
      | (c :: _, o) => .error (.syn (invalidChar c "after array element") (o + 1))

/-- Object members after `\x7b`, accumulated in reverse. -/
def parseObjElems : Nat → List Nat → Nat → List (String × Json) → Except JsonErr (Json × List Nat × Nat)
  | 0, _, off, _ => .error (.syn eofMsg off)
  | fuel + 1, bs, off, acc =>
    match bs with
    | [] => .error (.syn eofMsg off)
    | 34 :: rest =>
      match parseStrBody (rest.length + 1) rest (off + 1) [] with
      | .error e => .error e
      | .ok (k, rest1, off1) =>
        match skipWs rest1 off1 with
        | (58 :: r, o) =>
          match parseValue fuel r (o + 1) with
          | .error e => .error e
          | .ok (v, rest2, off2) =>
            match skipWs rest2 off2 with
            | ([], o2) => .error (.syn eofMsg o2)
            | (44 :: r2, o2) =>
              match skipWs r2 (o2 + 1) with
              | (bs3, o3) => parseObjElems fuel bs3 o3 ((k, v) :: acc)
            | (125 :: r2, o2) => .ok (.obj ((k, v) :: acc).reverse, r2, o2 + 1)
            | (c :: _, o2) => .error (.syn (invalidChar c "after object key:value pair") (o2 + 1))
        | ([], o) => .error (.syn eofMsg o)
        | (c :: _, o) => .error (.syn (invalidChar c "after object key") (o + 1))
    | c :: _ => .error (.syn (invalidChar c "looking for beginning of object key string") (off + 1))

end

/-- The `json.Unmarshal` syntax phase on a whole body: leading whitespace,
one value, trailing whitespace, nothing else. -/
def parseJsonTop (body : List Nat) : Except JsonErr Json :=
  match skipWs body 0 with
  | ([], off) => .error (.syn eofMsg off)
  | (bs, off) =>
    match parseValue (body.length * 2 + 8) bs off with
    | .error e => .error e
    | .ok (j, rest, off2) =>
      match skipWs rest off2 with
      | ([], _) => .ok j
      | (b :: _, off3) => .error (.syn (invalidChar b "after top-level value") (off3 + 1))

/-! ### Decoding into the typed records -/

/-- The `Ticker` struct; `bid`, `ask`, `last` are decimal strings in the
response (the `,string` tag), decoded here as exact rationals. -/
structure Ticker where
  Bid : ℚ
  Ask : ℚ
  Last : ℚ
deriving DecidableEq

/-- The Go zero value of `Ticker`. -/
def Ticker.zero : Ticker := ⟨0, 0, 0⟩

/-- The `Order` struct; the Go field `Type` is named `Type'` here.
Numeric-string fields are exact rationals. -/
structure Order where
  OrderId : String
  ClientId : String
  Symbol : String
  Price : ℚ
  AvgExecPrice : ℚ
  Side : String
  Type' : String
  Timestamp : Int
  TimestampMs : Int
  Live : Bool
  Cancelled : Bool
  ExecutedAmount : ℚ
  RemainingAmount : ℚ
  OrigAmount : ℚ
deriving DecidableEq

/-- The Go zero value of `Order`. -/
def Order.zero : Order := ⟨"", "", "", 0, 0, "", "", 0, 0, false, false, 0, 0, 0⟩

/-- Keep the first decoding error, as `encoding/json` saves only the
first error while continuing to fill the remaining fields. -/
def keepFirst (e : Option JsonErr) (e2 : JsonErr) : Option JsonErr :=
  match e with
  | some _ => e
  | none => some e2

/-- A `,string`-tagged number: the JSON value must be a string whose
contents are one complete JSON number. -/
def parseNumString (s : String) : Option ℚ :=
  match parseNumber (strBytes s) 0 with
  | .ok (q, [], _) => some q
  | _ => none

/-- Decode one `Ticker` field; `null` is a no-op, unknown keys are
ignored, a wrong shape records a type error. -/
def tickerField (acc : Ticker × Option JsonErr) (kv : String × Json) : Ticker × Option JsonErr :=
  match acc with
  | (t, e) =>
    match kv.2 with
    | .null => (t, e)
    | v =>
      let qOf : Json → Option ℚ := fun j =>
        match j with
        | .str s => parseNumString s
        | _ => none
      if kv.1 = "bid" then
        match qOf v with
        | some q => ({ t with Bid := q }, e)
        | none => (t, keepFirst e (.typeMismatch "cannot unmarshal value into field bid"))
      else if kv.1 = "ask" then
        match qOf v with
        | some q => ({ t with Ask := q }, e)
        | none => (t, keepFirst e (.typeMismatch "cannot unmarshal value into field ask"))
      else if kv.1 = "last" then
        match qOf v with
        | some q => ({ t with Last := q }, e)
        | none => (t, keepFirst e (.typeMismatch "cannot unmarshal value into field last"))
      else (t, e)

/-- Decode a JSON value into a `Ticker`. -/
def decodeTicker (j : Json) : Ticker × Option JsonErr :=
  match j with
  | .null => (Ticker.zero, none)
  | .obj fs => fs.foldl tickerField (Ticker.zero, none)
  | _ => (Ticker.zero, some (.typeMismatch "cannot unmarshal value into Ticker"))

/-- Decode one `Order` field, keyed by the json tags of the struct. -/
def orderField (acc : Order × Option JsonErr) (kv : String × Json) : Order × Option JsonErr :=
  match acc with
  | (o, e) =>
    match kv.2 with
    | .null => (o, e)
    | v =>
      let qStr : Json → Option ℚ := fun j =>
        match j with
        | .str s => parseNumString s
        | _ => none
      let intStr : Json → Option Int := fun j =>
        match j with
        | .str s =>
          match parseNumString s with
          | some q => if q.den = 1 then some q.num else none
          | none => none
        | _ => none
      let intNum : Json → Option Int := fun j =>
        match j with
        | .num q => if q.den = 1 then some q.num else none
        | _ => none
      let boolV : Json → Option Bool := fun j =>
        match j with
        | .jbool b => some b
        | _ => none
      let strV : Json → Option String := fun j =>
        match j with
        | .str s => some s
        | _ => none
      let k := kv.1
      let bad : JsonErr := .typeMismatch ("cannot unmarshal value into field " ++ k)
      if k = "order_id" then
        match strV v with
        | some s => ({ o with OrderId := s }, e)
        | none => (o, keepFirst e bad)
      else if k = "client_order_id" then
        match strV v with
        | some s => ({ o with ClientId := s }, e)
        | none => (o, keepFirst e bad)
      else if k = "symbol" then
        match strV v with
        | some s => ({ o with Symbol := s }, e)
        | none => (o, keepFirst e bad)
      else if k = "price" then
        match qStr v with
        | some q => ({ o with Price := q }, e)
        | none => (o, keepFirst e bad)
      else if k = "avg_execution_price" then
        match qStr v with
        | some q => ({ o with AvgExecPrice := q }, e)
        | none => (o, keepFirst e bad)
      else if k = "side" then
        match strV v with
        | some s => ({ o with Side := s }, e)
        | none => (o, keepFirst e bad)
      else if k = "type" then
        match strV v with
        | some s => ({ o with Type' := s }, e)
        | none => (o, keepFirst e bad)
      else if k = "timestamp" then
        match intStr v with
        | some n => ({ o with Timestamp := n }, e)
        | none => (o, keepFirst e bad)
      else if k = "timestampms" then
        match intNum v with
        | some n => ({ o with TimestampMs := n }, e)
        | none => (o, keepFirst e bad)
      else if k = "is_live" then
        match boolV v with
        | some b => ({ o with Live := b }, e)
        | none => (o, keepFirst e bad)
      else if k = "is_cancelled" then
        match boolV v with
        | some b => ({ o with Cancelled := b }, e)
        | none => (o, keepFirst e bad)
      else if k = "executed_amount" then
        match qStr v with
        | some q => ({ o with ExecutedAmount := q }, e)
        | none => (o, keepFirst e bad)
      else if k = "remaining_amount" then
        match qStr v with
        | some q => ({ o with RemainingAmount := q }, e)
        | none => (o, keepFirst e bad)
      else if k = "original_amount" then
        match qStr v with
        | some q => ({ o with OrigAmount := q }, e)
        | none => (o, keepFirst e bad)
      else (o, e)

/-- Decode a JSON value into an `Order`. -/
def decodeOrder (j : Json) : Order × Option JsonErr :=
  match j with
  | .null => (Order.zero, none)
  | .obj fs => fs.foldl orderField (Order.zero, none)
  | _ => (Order.zero, some (.typeMismatch "cannot unmarshal value into Order"))

/-- Decode a JSON value into a `[]Order`. -/
def decodeOrders (j : Json) : List Order × Option JsonErr :=
  match j with
  | .null => ([], none)
  | .arr xs =>
    xs.foldl
      (fun acc v =>
        match decodeOrder v with
        | (o, e2) => (acc.1 ++ [o], match acc.2 with | some _ => acc.2 | none => e2))
      ([], none)
  | _ => ([], some (.typeMismatch "cannot unmarshal value into slice of Order"))

/-- Go `json.Unmarshal(body, &ticker)`. -/
def unmarshalTicker (body : List Nat) : Ticker × Option JsonErr :=
  match parseJsonTop body with
  | .error e => (Ticker.zero, some e)
  | .ok j => decodeTicker j

/-- Go `json.Unmarshal(body, &order)`. -/
def unmarshalOrder (body : List Nat) : Order × Option JsonErr :=
  match parseJsonTop body with
  | .error e => (Order.zero, some e)
  | .ok j => decodeOrder j

/-- Go `json.Unmarshal(body, &orders)` for a `[]Order` target. -/
def unmarshalOrders (body : List Nat) : List Order × Option JsonErr :=
  match parseJsonTop body with
  | .error e => ([], some e)
  | .ok j => decodeOrders j

/-! ### The remaining API operations -/

/-- An error as the callers of the source see one: a transport failure
(`http.Get` or `client.Do`), a body-read failure, or a JSON decoding
failure.  `AuthAPIReq` itself never returns one - its error paths all
return `nil`. -/
inductive ApiError
  | transport (msg : String)
  | readBody (msg : String)
  | decode (e : JsonErr)
deriving DecidableEq

/-- The outcome the environment hands the unauthenticated `http.Get`. -/
inductive GetOutcome
  | getErr | readErr | ok (respBody : List Nat)
deriving DecidableEq

/-- Everything observable about one `GetTicker` call. -/
structure TickerResult where
  state : GeminiAPI
  attempted : HttpRequest
  tick : Ticker
  err : Option ApiError
deriving DecidableEq

/-- The `GetTicker` method (source lines 134-154): a plain `http.Get` of
`baseURL + "/v1/pubticker/" + pair`, no headers, no signing, no touch of
the dispatcher state; transport and decode errors are propagated. -/
def GetTicker (ga : GeminiAPI) (pair : String) (w : GetOutcome) : TickerResult :=
  let req : HttpRequest :=
    { method := "GET", url := ga.BaseURL ++ "/v1/pubticker/" ++ pair,
      reqBody := none, headers := [] }
  match w with
  | .getErr => ⟨ga, req, Ticker.zero, some (.transport "http get failed")⟩
  | .readErr => ⟨ga, req, Ticker.zero, some (.readBody "read failed")⟩
  | .ok b =>
    match unmarshalTicker b with
    | (t, some e) => ⟨ga, req, t, some (.decode e)⟩
    | (t, none) => ⟨ga, req, t, none⟩

/-- The `GetOrderStatus` method (source lines 174-188): an authenticated call to
`/v1/orders`; on a decode failure the caller receives the error and a
fresh empty list. -/
def GetOrderStatus (ga : GeminiAPI) (w : NetOutcome) :
    GeminiAPI × Option HttpRequest × List Order × Option ApiError :=
  let out := AuthAPIReq ga (.base (NewBaseRequest "/v1/orders")) w
  match out.retErr with
  | some m => (out.state, out.sent, [], some (.transport m))
  | none =>
    match unmarshalOrders out.retBody with
    | (_, some e) => (out.state, out.sent, [], some (.decode e))
    | (os, none) => (out.state, out.sent, os, none)

/-- Everything observable about one `PlaceLimitOrder` call.  `panicMsg`
is set when the source calls `panic` (abrupt termination before any
request is built); the remaining fields then keep their entry values. -/
structure PlaceResult where
  panicMsg : Option String
  state : GeminiAPI
  sent : Option HttpRequest
  signed : Option Req
  ord : Order
  err : Option ApiError
deriving DecidableEq

/-- The shared tail of `PlaceLimitOrder` once the price string is known:
build the `OrderPlaceReq`, dispatch it through `AuthAPIReq`, decode the
response into an `Order`. -/
def placeDispatch (ga : GeminiAPI) (direction ticker client_id amountStr priceStr : String)
    (w : NetOutcome) : PlaceResult :=
  let req : OrderPlaceReq :=
    { toBaseRequest := NewBaseRequest "/v1/order/new", Symbol := ticker,
      Amount := amountStr, Price := priceStr, Side := direction,
      Type' := "exchange limit", ClientId := client_id }
  let out := AuthAPIReq ga (.orderPlace req) w
  match out.retErr with
  | some m =>
    { panicMsg := none, state := out.state, sent := out.sent, signed := some out.signed,
      ord := Order.zero, err := some (.transport m) }
  | none =>
    match unmarshalOrder out.retBody with
    | (_, some e) =>
      { panicMsg := none, state := out.state, sent := out.sent, signed := some out.signed,
        ord := Order.zero, err := some (.decode e) }
    | (o, none) =>
      { panicMsg := none, state := out.state, sent := out.sent, signed := some out.signed,
        ord := o, err := none }

/-- The `PlaceLimitOrder` method (source lines 197-227): format the amount with six
decimal places; format the price with two decimal places for `btcusd`
and `ethusd` and five for `ethbtc`; `panic` on any other ticker before
any request is built or dispatched. -/
def PlaceLimitOrder (ga : GeminiAPI) (direction ticker client_id : String)
    (amount price : ℚ) (w : NetOutcome) : PlaceResult :=
  let amountStr := fmtFixed 6 amount
  if ticker = "btcusd" ∨ ticker = "ethusd" then
    placeDispatch ga direction ticker client_id amountStr (fmtFixed 2 price) w
  else if ticker = "ethbtc" then
    placeDispatch ga direction ticker client_id amountStr (fmtFixed 5 price) w
  else
    { panicMsg := some "Unsupported ticker for placing orders", state := ga,
      sent := none, signed := none, ord := Order.zero, err := none }

/-- The `NewGeminiAPI` constructor (source lines 230-239); the `time.Now().UnixNano()`
seed is an explicit argument. -/
def NewGeminiAPI (baseurl apikey : String) (apisecret : List Nat) (unixNano : Int) : GeminiAPI :=
  { BaseURL := baseurl, ApiKey := apikey, ApiSecret := apisecret, Nonce := unixNano }

/-! ### Concrete instances used by witnesses and counterexamples -/

/-- A dispatcher as `NewGeminiAPI` would build one. -/
def gaW : GeminiAPI :=
  { BaseURL := "https://api.gemini.com", ApiKey := "mykey",
    ApiSecret := strBytes "mysecret", Nonce := 12345 }

/-- The balances request, as `GetFunds` builds it. -/
def rW : Req := .base (NewBaseRequest "/v1/balances")

/-- The HTTP request `AuthAPIReq gaW rW` dispatches. -/
def reqW : HttpRequest := authHttpRequest gaW (rW.SetNonce gaW.Nonce)

/-- A three-call sequence with one success and two distinct failure modes. -/
def callsW : List (Req × NetOutcome) := [(rW, .ok []), (rW, .doErr), (rW, .newReqErr)]

/-- The signed order-placement request `PlaceLimitOrder gaW "buy" "btcusd"
"cid1" 0.1 10123.5` dispatches. -/
def placedW : Req :=
  (Req.orderPlace
    { toBaseRequest := NewBaseRequest "/v1/order/new", Symbol := "btcusd",
      Amount := "0.100000", Price := "10123.50", Side := "buy",
      Type' := "exchange limit", ClientId := "cid1" }).SetNonce gaW.Nonce

/-- A one-byte secret. -/
def secretA : List Nat := [65]

/-- The same secret extended by one zero byte. -/
def secretA0 : List Nat := [65, 0]

/-- A malformed response body. -/
def bodyXA : List Nat := strBytes "xa"

/-- A different malformed response body. -/
def bodyXB : List Nat := strBytes "xb"

/-- Membership: `s` consists of a dot-free prefix, a point, and exactly `d` digits. -/
def hasDecimals (s : String) (d : Nat) : Prop :=
  ∃ a b, s.toList = a ++ '.' :: b ∧ b.length = d ∧ '.' ∉ a ∧ ∀ c ∈ b, c.isDigit = true

/-! ### Basic facts about the dispatcher -/

theorem setNonce_nonceOf (r : Req) (n : Int) : (r.SetNonce n).nonceOf = n := by
  cases r <;> rfl

theorem setNonce_route (r : Req) (n : Int) : (r.SetNonce n).GetRoute = r.GetRoute := by
  cases r <;> rfl

theorem authAPIReq_state_eq (ga : GeminiAPI) (r : Req) (w : NetOutcome) :
    (AuthAPIReq ga r w).state = { ga with Nonce := wrap64 (ga.Nonce + 1) } := by
  cases w <;> rfl

theorem authAPIReq_signed_eq (ga : GeminiAPI) (r : Req) (w : NetOutcome) :
    (AuthAPIReq ga r w).signed = r.SetNonce ga.Nonce := by
  cases w <;> rfl

theorem authAPIReq_retErr_eq (ga : GeminiAPI) (r : Req) (w : NetOutcome) :
    (AuthAPIReq ga r w).retErr = none := by
  cases w <;> rfl

theorem authAPIReq_sent_eq (ga : GeminiAPI) (r : Req) (w : NetOutcome) (req : HttpRequest)
    (h : (AuthAPIReq ga r w).sent = some req) :
    req = authHttpRequest ga (r.SetNonce ga.Nonce) := by
  cases w with
  | newReqErr => exact Option.noConfusion h
  | doErr => exact (Option.some.inj h).symm
  | readErr => exact (Option.some.inj h).symm
  | ok b => exact (Option.some.inj h).symm

/-- C1: the signature attached to every dispatched authenticated request
equals the lowercase hex HMAC-SHA384, keyed by the secret, of the ASCII
bytes of the base64 payload, where the payload is the base64 encoding of
the JSON-serialized request body (route, nonce, then the caller fields)
- the HMAC input is the base64 string, not the raw JSON bytes. -/
theorem c1_signature_is_hmac_of_base64_payload (ga : GeminiAPI) (r : Req) (w : NetOutcome)
    (req : HttpRequest) (h : (AuthAPIReq ga r w).sent = some req) :
    hdrVal req "X-GEMINI-SIGNATURE" =
      some (hexEncode (hmacSha384 ga.ApiSecret
        (strBytes (base64Encode (Req.GetPayload (r.SetNonce ga.Nonce)))))) ∧
    Req.GetPayload (r.SetNonce ga.Nonce) = charsBytes (Req.jsonChars (r.SetNonce ga.Nonce)) := by
  have hreq := authAPIReq_sent_eq ga r w req h
  subst hreq
  exact ⟨rfl, rfl⟩

/-- C1 witness: the concrete dispatched request carries exactly that
signature header. -/
theorem c1_signature_is_hmac_of_base64_payload_witness :
    hdrVal reqW "X-GEMINI-SIGNATURE" =
      some (hexEncode (hmacSha384 gaW.ApiSecret
        (strBytes (base64Encode (Req.GetPayload (rW.SetNonce gaW.Nonce)))))) :=
  (c1_signature_is_hmac_of_base64_payload gaW rW (.ok []) reqW rfl).1

/-- C3: the claim is contradicted by the code.  On a `client.Do`
transport failure, and likewise on a body-read failure, `AuthAPIReq`
returns an empty byte slice together with a `nil` error: the failure is
swallowed into a successful empty result, no error value reaches the
caller, and nothing identifies the route in the return value. -/
theorem c3_transport_failure_swallowed :
    ((AuthAPIReq gaW rW .doErr).retErr = none ∧
      (AuthAPIReq gaW rW .doErr).retBody = [] ∧
      (AuthAPIReq gaW rW .doErr).sent ≠ none) ∧
    ∀ (ga : GeminiAPI) (r : Req),
      (AuthAPIReq ga r .doErr).retErr = none ∧ (AuthAPIReq ga r .doErr).retBody = [] ∧
      (AuthAPIReq ga r .readErr).retErr = none ∧ (AuthAPIReq ga r .readErr).retBody = [] :=
  ⟨⟨rfl, rfl, Option.some_ne_none _⟩, fun _ _ => ⟨rfl, rfl, rfl, rfl⟩⟩

/-- C4 is false as stated: the three headers the source attaches are
named `X-GEMINI-APIKEY`, `X-GEMINI-PAYLOAD` and `X-GEMINI-SIGNATURE`; a
concrete dispatched request carries no header named `X-API-KEY`,
`X-API-PAYLOAD` or `X-API-SIGNATURE`. -/
theorem c4_header_names_counterexample :
    (AuthAPIReq gaW rW (.ok [])).sent = some reqW ∧
    reqW.headers.map Prod.fst = ["X-GEMINI-APIKEY", "X-GEMINI-PAYLOAD", "X-GEMINI-SIGNATURE"] ∧
    hdrVal reqW "X-API-KEY" = none ∧
    hdrVal reqW "X-API-PAYLOAD" = none ∧
    hdrVal reqW "X-API-SIGNATURE" = none :=
  ⟨rfl, rfl, rfl, rfl, rfl⟩

/-- C4 amended: every authenticated request is dispatched as an HTTP
POST to `baseURL ++ route` with an empty body and exactly the three
authentication headers `X-GEMINI-APIKEY` (the plaintext key),
`X-GEMINI-PAYLOAD` (the base64 payload) and `X-GEMINI-SIGNATURE` (the
hex signature). -/
theorem c4_post_url_body_headers (ga : GeminiAPI) (r : Req) (w : NetOutcome)
    (req : HttpRequest) (h : (AuthAPIReq ga r w).sent = some req) :
    req.method = "POST" ∧ req.url = ga.BaseURL ++ r.GetRoute ∧ req.reqBody = none ∧
    req.headers = [("X-GEMINI-APIKEY", ga.ApiKey),
                   ("X-GEMINI-PAYLOAD", signPayload (r.SetNonce ga.Nonce)),
                   ("X-GEMINI-SIGNATURE", signatureHex ga.ApiSecret (r.SetNonce ga.Nonce))] := by
  have hreq := authAPIReq_sent_eq ga r w req h
  subst hreq
  refine ⟨rfl, ?_, rfl, rfl⟩
  show ga.BaseURL ++ (r.SetNonce ga.Nonce).GetRoute = ga.BaseURL ++ r.GetRoute
  rw [setNonce_route]

/-- C4 amended, witness at the concrete request. -/
theorem c4_post_url_body_headers_witness :
    reqW.method = "POST" ∧ reqW.url = gaW.BaseURL ++ rW.GetRoute ∧ reqW.reqBody = none ∧
    reqW.headers = [("X-GEMINI-APIKEY", gaW.ApiKey),
                    ("X-GEMINI-PAYLOAD", signPayload (rW.SetNonce gaW.Nonce)),
                    ("X-GEMINI-SIGNATURE", signatureHex gaW.ApiSecret (rW.SetNonce gaW.Nonce))] :=
  c4_post_url_body_headers gaW rW (.ok []) reqW rfl

/-- C5 is false as stated in its secret clause: `secretA` and `secretA0`
are distinct secrets, yet they sign the same body identically, because
HMAC zero-pads the key to the hash block size. -/
theorem c5_distinct_secrets_same_signature :
    secretA ≠ secretA0 ∧
    signatureHex secretA (rW.SetNonce 1) = signatureHex secretA0 (rW.SetNonce 1) :=
  ⟨by decide, by decide⟩

/-- C5 amended: the payload and signature construction is deterministic
- runs of the signing step on equal body fields, equal nonce and equal
secret produce equal base64 payloads and equal hex signatures.  (The
distinctness direction of the original claim fails for the secret; see
the counterexample.) -/
theorem c5_signing_deterministic (s1 s2 : List Nat) (r1 r2 : Req)
    (hs : s1 = s2) (hr : r1 = r2) :
    signPayload r1 = signPayload r2 ∧ signatureHex s1 r1 = signatureHex s2 r2 := by
  subst hs; subst hr; exact ⟨rfl, rfl⟩

/-- C5 amended, witness: two syntactically different writings of the
same request sign identically under the same secret. -/
theorem c5_signing_deterministic_witness :
    signPayload (rW.SetNonce 1) = signPayload (.base ⟨"/v1/balances", 1⟩) ∧
    signatureHex secretA (rW.SetNonce 1) = signatureHex secretA (.base ⟨"/v1/balances", 1⟩) :=
  c5_signing_deterministic secretA secretA (rW.SetNonce 1) (.base ⟨"/v1/balances", 1⟩) rfl rfl

/-! ### Nonce sequencing -/

theorem wrap64_eq_self (n : Int) (h0 : -(2 ^ 63) ≤ n) (h1 : n < 2 ^ 63) :
    wrap64 n = n := by
  simp only [wrap64]
  omega

theorem runAuthCalls_spec (calls : List (Req × NetOutcome)) :
    ∀ ga : GeminiAPI, 0 ≤ ga.Nonce → ga.Nonce + calls.length < 2 ^ 63 →
      (runAuthCalls ga calls).2 =
        (List.range calls.length).map (fun i => ga.Nonce + Int.ofNat i) ∧
      (runAuthCalls ga calls).1.Nonce = ga.Nonce + calls.length := by
  induction calls with
  | nil => intro ga h0 h1; simp [runAuthCalls]
  | cons hd tl ih =>
    intro ga h0 h1
    obtain ⟨r, w⟩ := hd
    have hbound : ga.Nonce + 1 + tl.length < 2 ^ 63 := by
      simp only [List.length_cons] at h1
      push_cast at h1 ⊢
      omega
    have hwrap : wrap64 (ga.Nonce + 1) = ga.Nonce + 1 := by
      apply wrap64_eq_self
      · omega
      · have htl : (0 : Int) ≤ tl.length := by positivity
        omega
    have hga' : (AuthAPIReq ga r w).state = { ga with Nonce := ga.Nonce + 1 } := by
      rw [authAPIReq_state_eq, hwrap]
    have ih' := ih { ga with Nonce := ga.Nonce + 1 } (by simp; omega) (by simpa using hbound)
    simp only [runAuthCalls]
    rw [hga', authAPIReq_signed_eq, setNonce_nonceOf]
    constructor
    · rw [ih'.1]
      simp only [List.length_cons, List.range_succ_eq_map, List.map_cons, List.map_map]
      congr 1
      · simp [Int.ofNat_zero]
      · apply List.map_congr_left
        intro i _
        simp only [Function.comp_apply, Int.ofNat_eq_natCast]
        push_cast
        ring
    · rw [ih'.2]
      simp only [List.length_cons]
      push_cast
      ring

/-- C2: across any sequence of authenticated calls on one dispatcher the
nonces embedded in the signed bodies are strictly increasing and
pairwise distinct (stated below the int64 maximum, which the
timestamp-seeded counter stays astronomically far from); every call -
succeeding or failing at any of the three failure points - embeds the
pre-call counter value in the body it signs and steps the counter by
exactly one, with no decrement or rollback on any path. -/
theorem c2_nonce_strictly_increasing (ga : GeminiAPI) (calls : List (Req × NetOutcome))
    (h0 : 0 ≤ ga.Nonce) (h1 : ga.Nonce + calls.length < 2 ^ 63) :
    List.Pairwise (· < ·) (runAuthCalls ga calls).2 ∧
    (runAuthCalls ga calls).2.Nodup ∧
    (runAuthCalls ga calls).1.Nonce = ga.Nonce + calls.length ∧
    ∀ (r : Req) (w : NetOutcome),
      (AuthAPIReq ga r w).signed.nonceOf = ga.Nonce ∧
      (AuthAPIReq ga r w).state.Nonce = wrap64 (ga.Nonce + 1) := by
  obtain ⟨hseq, hst⟩ := runAuthCalls_spec calls ga h0 h1
  have hpw : List.Pairwise (· < ·) (runAuthCalls ga calls).2 := by
    rw [hseq, List.pairwise_map]
    apply List.Pairwise.imp ?_ (List.pairwise_lt_range _)
    intro a b hab
    simp only [Int.ofNat_eq_natCast]
    omega
  refine ⟨hpw, hpw.imp (fun h => ne_of_lt h), hst, fun r w => ⟨?_, ?_⟩⟩
  · rw [authAPIReq_signed_eq, setNonce_nonceOf]
  · rw [authAPIReq_state_eq]

/-- C2 witness: a concrete three-call sequence, one success and two
distinct failure modes. -/
theorem c2_nonce_strictly_increasing_witness :
    List.Pairwise (· < ·) (runAuthCalls gaW callsW).2 ∧
    (runAuthCalls gaW callsW).2.Nodup ∧
    (runAuthCalls gaW callsW).1.Nonce = gaW.Nonce + callsW.length ∧
    ∀ (r : Req) (w : NetOutcome),
      (AuthAPIReq gaW r w).signed.nonceOf = gaW.Nonce ∧
      (AuthAPIReq gaW r w).state.Nonce = wrap64 (gaW.Nonce + 1) :=
  c2_nonce_strictly_increasing gaW callsW (by decide) (by decide)

/-! ### Decimal formatting facts -/

theorem digitChar_facts (n : Nat) : (digitChar n).isDigit = true ∧ digitChar n ≠ '.' := by
  unfold digitChar
  have h : n % 10 < 10 := Nat.mod_lt _ (by norm_num)
  set k := n % 10 with hk
  clear_value k
  interval_cases k <;> exact ⟨by decide, by decide⟩

theorem natCharsAux_mem (fuel : Nat) : ∀ (n : Nat), ∀ c ∈ natCharsAux fuel n, ∃ m, c = digitChar m := by
  induction fuel with
  | zero => intro n c hc; simp [natCharsAux] at hc
  | succ fuel ih =>
    intro n c hc
    unfold natCharsAux at hc
    by_cases h : n < 10
    · rw [if_pos h] at hc
      simp at hc
      exact ⟨n, hc⟩
    · rw [if_neg h] at hc
      rcases List.mem_append.mp hc with h1 | h2
      · exact ih _ c h1
      · simp at h2
        exact ⟨n, h2⟩

theorem padDigits_length (d n : Nat) : (padDigits d n).length = d := by
  simp [padDigits]

theorem padDigits_mem (d n : Nat) : ∀ c ∈ padDigits d n, ∃ m, c = digitChar m := by
  intro c hc
  simp only [padDigits, List.mem_map, List.mem_reverse, List.mem_range] at hc
  obtain ⟨i, _, hi⟩ := hc
  exact ⟨_, hi.symm⟩

theorem fmtCharsNat_decimals (d n : Nat) (pre : List Char) (hpre : '.' ∉ pre) :
    ∃ a b, pre ++ fmtCharsNat d n = a ++ '.' :: b ∧ b.length = d ∧ '.' ∉ a ∧
      ∀ c ∈ b, c.isDigit = true := by
  refine ⟨pre ++ natChars (n / 10 ^ d), padDigits d (n % 10 ^ d), ?_, padDigits_length _ _, ?_, ?_⟩
  · simp [fmtCharsNat]
  · intro h
    rcases List.mem_append.mp h with h | h
    · exact hpre h
    · obtain ⟨m, hm⟩ := natCharsAux_mem _ _ '.' (by simpa [natChars] using h)
      exact (digitChar_facts m).2 hm.symm
  · intro c hc
    obtain ⟨m, rfl⟩ := padDigits_mem _ _ c hc
    exact (digitChar_facts m).1

theorem fmtFixed_hasDecimals (d : Nat) (q : ℚ) : hasDecimals (fmtFixed d q) d := by
  unfold hasDecimals fmtFixed fmtChars
  by_cases hq : q < 0
  · rw [if_pos hq]
    have := fmtCharsNat_decimals d (roundDecimal d q) ['-'] (by decide)
    simpa using this
  · rw [if_neg hq]
    have := fmtCharsNat_decimals d (roundDecimal d q) [] (by decide)
    simpa using this

/-! ### Order placement -/

theorem unmarshalOrder_nil : unmarshalOrder [] = (Order.zero, some (.syn eofMsg 0)) := rfl

theorem placeDispatch_signed (ga : GeminiAPI)
    (direction ticker client_id amountStr priceStr : String) (w : NetOutcome) :
    (placeDispatch ga direction ticker client_id amountStr priceStr w).signed =
      some ((Req.orderPlace
        { toBaseRequest := NewBaseRequest "/v1/order/new", Symbol := ticker,
          Amount := amountStr, Price := priceStr, Side := direction,
          Type' := "exchange limit", ClientId := client_id }).SetNonce ga.Nonce) := by
  cases w with
  | ok b =>
    rcases hu : unmarshalOrder b with ⟨o, e⟩
    cases e <;> simp [placeDispatch, AuthAPIReq, hu]
  | doErr => simp [placeDispatch, AuthAPIReq, unmarshalOrder_nil]
  | readErr => simp [placeDispatch, AuthAPIReq, unmarshalOrder_nil]
  | newReqErr => simp [placeDispatch, AuthAPIReq, unmarshalOrder_nil]

theorem placeLimitOrder_signed_shape (ga : GeminiAPI) (direction ticker client_id : String)
    (amount price : ℚ) (w : NetOutcome) (r : Req)
    (h : (PlaceLimitOrder ga direction ticker client_id amount price w).signed = some r) :
    ∃ priceStr,
      (((ticker = "btcusd" ∨ ticker = "ethusd") ∧ priceStr = fmtFixed 2 price) ∨
        (ticker = "ethbtc" ∧ priceStr = fmtFixed 5 price)) ∧
      r = (Req.orderPlace
            { toBaseRequest := NewBaseRequest "/v1/order/new", Symbol := ticker,
              Amount := fmtFixed 6 amount, Price := priceStr, Side := direction,
              Type' := "exchange limit", ClientId := client_id }).SetNonce ga.Nonce := by
  by_cases h1 : ticker = "btcusd" ∨ ticker = "ethusd"
  · refine ⟨fmtFixed 2 price, Or.inl ⟨h1, rfl⟩, ?_⟩
    rw [PlaceLimitOrder] at h
    rw [if_pos h1, placeDispatch_signed] at h
    exact (Option.some.inj h).symm
  · by_cases h2 : ticker = "ethbtc"
    · refine ⟨fmtFixed 5 price, Or.inr ⟨h2, rfl⟩, ?_⟩
      rw [PlaceLimitOrder] at h
      rw [if_neg h1, if_pos h2, placeDispatch_signed] at h
      exact (Option.some.inj h).symm
    · exfalso
      rw [PlaceLimitOrder] at h
      rw [if_neg h1, if_neg h2] at h
      exact Option.noConfusion h

/-- C6: each placed order carries the amount formatted with exactly six
decimal places; the price is formatted with exactly two decimal places
for the fiat-quoted pairs `btcusd` and `ethusd` and with exactly five
for `ethbtc`; in particular price `10123.5` becomes `"10123.50"`, amount
`0.1` becomes `"0.100000"`, and ethbtc price `0.03125` becomes
`"0.03125"`. -/
theorem c6_price_amount_formatting (ga : GeminiAPI) (direction ticker client_id : String)
    (amount price : ℚ) (w : NetOutcome) (r : Req)
    (h : (PlaceLimitOrder ga direction ticker client_id amount price w).signed = some r) :
    (∃ o : OrderPlaceReq, r = .orderPlace o ∧
      o.Amount = fmtFixed 6 amount ∧ hasDecimals o.Amount 6 ∧
      ((ticker = "btcusd" ∨ ticker = "ethusd") → o.Price = fmtFixed 2 price ∧ hasDecimals o.Price 2) ∧
      (ticker = "ethbtc" → o.Price = fmtFixed 5 price ∧ hasDecimals o.Price 5)) ∧
    fmtFixed 2 (10123.5 : ℚ) = "10123.50" ∧
    fmtFixed 6 (0.1 : ℚ) = "0.100000" ∧
    fmtFixed 5 (0.03125 : ℚ) = "0.03125" := by
  obtain ⟨ps, hps, hr⟩ := placeLimitOrder_signed_shape ga direction ticker client_id amount price w r h
  subst hr
  refine ⟨⟨_, rfl, rfl, fmtFixed_hasDecimals _ _, ?_, ?_⟩, by decide, by decide, by decide⟩
  · intro hf
    rcases hps with ⟨_, rfl⟩ | ⟨he, _⟩
    · exact ⟨rfl, fmtFixed_hasDecimals _ _⟩
    · rcases hf with hf | hf <;> rw [hf] at he <;> exact absurd he (by decide)
  · intro he
    rcases hps with ⟨hf, _⟩ | ⟨_, rfl⟩
    · rcases hf with hf | hf <;> rw [he] at hf <;> exact absurd hf (by decide)
    · exact ⟨rfl, fmtFixed_hasDecimals _ _⟩

/-- C6 witness: the concrete btcusd placement. -/
theorem c6_price_amount_formatting_witness :
    (∃ o : OrderPlaceReq, placedW = .orderPlace o ∧
      o.Amount = fmtFixed 6 (0.1 : ℚ) ∧ hasDecimals o.Amount 6 ∧
      (("btcusd" = "btcusd" ∨ "btcusd" = "ethusd") →
        o.Price = fmtFixed 2 (10123.5 : ℚ) ∧ hasDecimals o.Price 2) ∧
      ("btcusd" = "ethbtc" → o.Price = fmtFixed 5 (10123.5 : ℚ) ∧ hasDecimals o.Price 5)) ∧
    fmtFixed 2 (10123.5 : ℚ) = "10123.50" ∧
    fmtFixed 6 (0.1 : ℚ) = "0.100000" ∧
    fmtFixed 5 (0.03125 : ℚ) = "0.03125" :=
  c6_price_amount_formatting gaW "buy" "btcusd" "cid1" (0.1 : ℚ) (10123.5 : ℚ) (.ok [])
    placedW (by decide)

/-- C7: placing an order for any ticker other than `btcusd`, `ethusd`
and `ethbtc` fails fast - the source panics (the abort form of the
configuration error of the spec) with no request built or dispatched and
the dispatcher state, its nonce counter included, left untouched. -/
theorem c7_unsupported_ticker_fails_fast (ga : GeminiAPI) (direction ticker client_id : String)
    (amount price : ℚ) (w : NetOutcome)
    (h1 : ticker ≠ "btcusd") (h2 : ticker ≠ "ethusd") (h3 : ticker ≠ "ethbtc") :
    PlaceLimitOrder ga direction ticker client_id amount price w =
      { panicMsg := some "Unsupported ticker for placing orders", state := ga,
        sent := none, signed := none, ord := Order.zero, err := none } := by
  simp [PlaceLimitOrder, h1, h2, h3]

/-- C7 witness: a concrete unsupported ticker. -/
theorem c7_unsupported_ticker_fails_fast_witness :
    PlaceLimitOrder gaW "buy" "dogeusd" "cid1" (0.1 : ℚ) (10123.5 : ℚ) (.ok []) =
      { panicMsg := some "Unsupported ticker for placing orders", state := gaW,
        sent := none, signed := none, ord := Order.zero, err := none } :=
  c7_unsupported_ticker_fails_fast gaW "buy" "dogeusd" "cid1" (0.1 : ℚ) (10123.5 : ℚ) (.ok [])
    (by decide) (by decide) (by decide)

/-- C8 is false in its preservation clause: two distinct malformed
bodies produce completely identical `GetOrderStatus` results - the raw
body is not recoverable from what the caller receives, so it is not
preserved. -/
theorem c8_raw_body_discarded_counterexample :
    bodyXA ≠ bodyXB ∧
    GetOrderStatus gaW (.ok bodyXA) = GetOrderStatus gaW (.ok bodyXB) :=
  ⟨by decide, by decide⟩

/-- C8 amended: on any response body that does not unmarshal as the
expected order array, `GetOrderStatus` reports the decode error to the
caller with a fresh empty list (the raw body itself is discarded, not
preserved - see the counterexample). -/
theorem c8_decode_error_reported (ga : GeminiAPI) (body : List Nat) (e : JsonErr)
    (h : (unmarshalOrders body).2 = some e) :
    GetOrderStatus ga (.ok body) =
      ((AuthAPIReq ga (.base (NewBaseRequest "/v1/orders")) (.ok body)).state,
       (AuthAPIReq ga (.base (NewBaseRequest "/v1/orders")) (.ok body)).sent,
       [], some (.decode e)) := by
  rcases hu : unmarshalOrders body with ⟨os, e2⟩
  rw [hu] at h
  simp only at h
  subst h
  simp [GetOrderStatus, AuthAPIReq, hu]

/-- C8 amended, witness: the concrete malformed body `"xa"`. -/
theorem c8_decode_error_reported_witness :
    GetOrderStatus gaW (.ok bodyXA) =
      ((AuthAPIReq gaW (.base (NewBaseRequest "/v1/orders")) (.ok bodyXA)).state,
       (AuthAPIReq gaW (.base (NewBaseRequest "/v1/orders")) (.ok bodyXA)).sent,
       [], some (.decode (.syn (invalidChar 120 "looking for beginning of value") 1))) :=
  c8_decode_error_reported gaW bodyXA
    (.syn (invalidChar 120 "looking for beginning of value") 1) (by decide)

/-- C9: the unauthenticated ticker fetch bypasses signing entirely - it
issues a plain GET of `baseURL ++ "/v1/pubticker/" ++ pair` with no
headers and no body - and leaves every dispatcher field, the nonce
counter included, unchanged, whatever the transport outcome. -/
theorem c9_get_ticker_unauthenticated_frame (ga : GeminiAPI) (pair : String) (w : GetOutcome) :
    (GetTicker ga pair w).state = ga ∧
    (GetTicker ga pair w).attempted.method = "GET" ∧
    (GetTicker ga pair w).attempted.url = ga.BaseURL ++ "/v1/pubticker/" ++ pair ∧
    (GetTicker ga pair w).attempted.headers = [] ∧
    (GetTicker ga pair w).attempted.reqBody = none := by
  cases w with
  | getErr => exact ⟨rfl, rfl, rfl, rfl, rfl⟩
  | readErr => exact ⟨rfl, rfl, rfl, rfl, rfl⟩
  | ok b =>
    rcases hu : unmarshalTicker b with ⟨t, e⟩
    cases e <;> simp [GetTicker, hu]

/-- C10: whatever the arguments, the order type field of every request
body `PlaceLimitOrder` signs and dispatches is the constant string
`"exchange limit"`. -/
theorem c10_order_type_always_exchange_limit (ga : GeminiAPI) (direction ticker client_id : String)
    (amount price : ℚ) (w : NetOutcome) (r : Req)
    (h : (PlaceLimitOrder ga direction ticker client_id amount price w).signed = some r) :
    ∃ o : OrderPlaceReq, r = .orderPlace o ∧ o.Type' = "exchange limit" := by
  obtain ⟨ps, _, hr⟩ := placeLimitOrder_signed_shape ga direction ticker client_id amount price w r h
  subst hr
  exact ⟨_, rfl, rfl⟩

/-- C10 witness: the concrete btcusd placement. -/
theorem c10_order_type_always_exchange_limit_witness :
    ∃ o : OrderPlaceReq, placedW = .orderPlace o ∧ o.Type' = "exchange limit" :=
  c10_order_type_always_exchange_limit gaW "buy" "btcusd" "cid1" (0.1 : ℚ) (10123.5 : ℚ)
    (.ok []) placedW (by decide)

/-- The SHA-384 digest of `"abc"`, pinning the constant tables above to
the FIPS 180-4 test vector. -/
theorem sha384_fips_test_vector :
    hexEncode (sha384 (strBytes "abc")) =
      "cb00753f45a35e8bb5a03d699ac65007272c32ab0eded1631a8b605a43ff5bed8086072ba1e7cc2358baeca134c825a7" := by
  decide

/-- HMAC-SHA-384 of RFC 4231 test case 2, pinning the HMAC construction
to the standard. -/
theorem hmacSha384_rfc4231_test_vector :
    hexEncode (hmacSha384 (strBytes "Jefe") (strBytes "what do ya want for nothing?")) =
      "af45d2e376484031617f78d2b58a6b1b9c7ef464f5a01b47e42ec3736322445e8e2240ca5e69e2c78b3239ecfab21649" := by
  decide
